import Mathlib

/-!
Verification of the weathermin core subsystems: the radar frame cache
(merge of a persisted frame window with a freshly polled frame batch),
the snowfall model-fusion rule (per-index maximum of GFS and GEM series),
the playback controller (advance and scrub), and the derived-value
classifiers (AQI and UV bands).  All definitions are shallow embeddings
of the corresponding code in src/src/App.jsx.
-/

/-- A radar/satellite animation frame as delivered by the tile-frame
manifest: `{ time: unix seconds, path: string }`. -/
structure Frame where
  time : Int
  path : String
deriving DecidableEq, Repr

namespace FrameCache

/-- JS `Map.set` keyed by `Frame.time` on an association list that holds at
most one entry per key (a JS `Map` never holds two entries with one key):
replace the entry with the same key in place, else append at the end.  This
models `frameMap.set(f.time, f)`. -/
def mapSet : List Frame → Frame → List Frame
  | [], f => [f]
  | g :: m, f => if g.time = f.time then f :: m else g :: mapSet m f

/-- `Map.get` by time: the first (with keys unique, the only) frame stored
under key `t`. -/
def lookupTime (m : List Frame) (t : Int) : Option Frame :=
  m.find? (fun f => f.time == t)

/-- `fs.forEach(f => frameMap.set(f.time, f))`. -/
def setAll (m : List Frame) (fs : List Frame) : List Frame :=
  fs.foldl mapSet m

/-- The last frame of `fs` carrying time `t` — the one a forEach of
`Map.set` calls leaves stored under `t`. -/
def lastFrameAt (fs : List Frame) (t : Int) : Option Frame :=
  fs.reverse.find? (fun f => f.time == t)

/-- The comparator `(a, b) => a.time - b.time` as an ordering relation. -/
def frameLE (a b : Frame) : Prop := a.time ≤ b.time

instance : DecidableRel frameLE := fun a b => inferInstanceAs (Decidable (a.time ≤ b.time))

instance : IsTotal Frame frameLE := ⟨fun a b => Int.le_total a.time b.time⟩

instance : IsTrans Frame frameLE := ⟨fun _ _ _ h₁ h₂ => le_trans h₁ h₂⟩

/-- `Array.from(frameMap.values()).sort((a, b) => a.time - b.time)`,
modelled by a stable sort with the same comparator. -/
def sortFrames (m : List Frame) : List Frame :=
  List.insertionSort frameLE m

/-- `cachedFrames.forEach(f => { if (f.time >= cutoff) frameMap.set(f.time, f) })`:
seed an empty map with the age-valid frames of the previous window. -/
def seedCached (cached : List Frame) (cutoff : Int) : List Frame :=
  cached.foldl (fun m f => if cutoff ≤ f.time then mapSet m f else m) []

/-- The frame-cache merge of `fetchFrames` (src/src/App.jsx, RadarTab):
seed a map with the age-filtered cached frames, overlay every fresh frame
(overwriting on time collision), then sort ascending by time. -/
def mergeFrames (cached fresh : List Frame) (now maxAge : Int) : List Frame :=
  sortFrames (setAll (seedCached cached (now - maxAge)) fresh)

/-- `JSON.stringify(allFrames.filter(f => f.time <= now))`: the slice of the
merged window written to durable local storage. -/
def persistedFrames (cached fresh : List Frame) (now maxAge : Int) : List Frame :=
  (mergeFrames cached fresh now maxAge).filter (fun f => f.time ≤ now)

/-- Outcome of the `localStorage.getItem`/`JSON.parse` step: `cachedFrames`
starts as `[]` and keeps that value when the guarded read throws
(`try { ... } catch (e) {}`). -/
def readCachedFrames (stored : Except String (List Frame)) : List Frame :=
  match stored with
  | .ok l => l
  | .error _ => []

/-- What one `fetchFrames` tick produces: the in-memory window handed to
`setRadarFrames`, and the slice written to storage (`none` when the guarded
`localStorage.setItem` throws — the failure is swallowed). -/
structure FetchOutcome where
  window : List Frame
  persisted : Option (List Frame)
deriving DecidableEq, Repr

/-- One `fetchFrames` tick: read the cache (a failing read degrades to the
empty cache), merge with the fresh batch, then attempt to persist the
past-only slice; a failing write changes nothing about the window. -/
def runFetchFrames (stored : Except String (List Frame)) (writeFails : Bool)
    (fresh : List Frame) (now maxAge : Int) : FetchOutcome :=
  let window := mergeFrames (readCachedFrames stored) fresh now maxAge
  ⟨window, if writeFails then none else some (window.filter (fun f => f.time ≤ now))⟩

end FrameCache

/-- The snowfall fusion of `fetchExtended` and `fetchWeatherData`
(src/src/App.jsx): `primary.map((gfs, i) => Math.max(gfs, secondary[i] || 0))`.
A missing secondary entry reads as `undefined`, and `undefined || 0` is `0`
(a stored `0` also reads back as `0`), so the fold-down to `0` is exact. -/
def fuseSnow : List ℚ → List ℚ → List ℚ
  | [], _ => []
  | p :: ps, [] => max p 0 :: fuseSnow ps []
  | p :: ps, s :: ss => max p s :: fuseSnow ps ss

/-- An Open-Meteo forecast request, reduced to the query parameters the
snowfall claims depend on.  `none` for a unit parameter means the request
does not set it and the API default applies. -/
structure OpenMeteoRequest where
  model : String
  hourlyVars : List String
  dailyVars : List String
  temperatureUnit : Option String
  windSpeedUnit : Option String
  precipitationUnit : Option String
  forecastDays : Nat
deriving DecidableEq, Repr

/-- The GFS request of `fetchExtended` (src/src/App.jsx): hourly and daily
variables with `temperature_unit=fahrenheit&wind_speed_unit=mph&precipitation_unit=inch`. -/
def gfsExtendedRequest : OpenMeteoRequest :=
  ⟨"gfs",
   ["temperature_2m", "precipitation_probability", "precipitation", "snowfall",
    "freezing_level_height", "snow_depth", "wind_speed_10m", "wind_gusts_10m",
    "cape", "lifted_index", "convective_inhibition", "visibility"],
   ["temperature_2m_max", "temperature_2m_min", "precipitation_sum",
    "snowfall_sum", "precipitation_probability_max"],
   some "fahrenheit", some "mph", some "inch", 16⟩

/-- The GEM request of `fetchExtended` (src/src/App.jsx): only
`hourly=snowfall&daily=snowfall_sum&timezone=...&forecast_days=16`; no unit
parameter at all. -/
def gemExtendedRequest : OpenMeteoRequest :=
  ⟨"gem", ["snowfall"], ["snowfall_sum"], none, none, none, 16⟩

/-- Modelled from the spec: the native snowfall unit of the upstream model
API is centimetres (§4.5 lists the raw API fields as metric, cm, and the
display code divides snowfall by 2.54 to obtain inches), so a request that
does not set `precipitation_unit` receives snowfall in cm, while
`precipitation_unit=inch` switches it to inches. -/
def snowfallUnit (r : OpenMeteoRequest) : String :=
  r.precipitationUnit.getD "cm"

/-- `s / 2.54`, the cm → inch conversion used throughout the source. -/
def cmToInches (s : ℚ) : ℚ := s / (254 / 100)

/-- AQI classification record of `getAqiLevel` (src/src/App.jsx). -/
structure AqiLevel where
  label : String
  color : String
  bg : String
deriving DecidableEq, Repr

/-- `getAqiLevel` (src/src/App.jsx): cascaded upper-inclusive bands. -/
def getAqiLevel (aqi : ℚ) : AqiLevel :=
  if aqi ≤ 50 then ⟨"Good", "text-emerald-400", "bg-emerald-500/20"⟩
  else if aqi ≤ 100 then ⟨"Moderate", "text-yellow-400", "bg-yellow-500/20"⟩
  else if aqi ≤ 150 then ⟨"Unhealthy for Sensitive", "text-orange-400", "bg-orange-500/20"⟩
  else if aqi ≤ 200 then ⟨"Unhealthy", "text-red-400", "bg-red-500/20"⟩
  else if aqi ≤ 300 then ⟨"Very Unhealthy", "text-purple-400", "bg-purple-500/20"⟩
  else ⟨"Hazardous", "text-rose-400", "bg-rose-500/20"⟩

/-- UV classification record of `getUvLevel` (src/src/App.jsx). -/
structure UvLevel where
  label : String
  color : String
deriving DecidableEq, Repr

/-- `getUvLevel` (src/src/App.jsx): cascaded upper-inclusive bands. -/
def getUvLevel (uv : ℚ) : UvLevel :=
  if uv ≤ 2 then ⟨"Low", "text-emerald-400"⟩
  else if uv ≤ 5 then ⟨"Moderate", "text-yellow-400"⟩
  else if uv ≤ 7 then ⟨"High", "text-orange-400"⟩
  else if uv ≤ 10 then ⟨"Very High", "text-red-400"⟩
  else ⟨"Extreme", "text-purple-400"⟩

/-- One auto-play tick: `setCurrentFrame(prev => (prev + 1) % radarFrames.length)`
(RadarTab and MiniRadar, src/src/App.jsx). -/
def advanceFrame (prev len : Nat) : Nat := (prev + 1) % len

/-- Playback state of RadarTab: `currentFrame` and `isPlaying`. -/
structure PlaybackState where
  currentFrame : Int
  isPlaying : Bool
deriving DecidableEq, Repr

/-- The value a range input with attributes `min=0`, `max=len-1` delivers to
its onChange handler: the requested position clamped into that interval. -/
def clampToRange (len : Nat) (requested : Int) : Int :=
  max 0 (min ((len : Int) - 1) requested)

/-- The timeline-scrubber onChange of RadarTab (src/src/App.jsx):
`setCurrentFrame(parseInt(e.target.value)); setIsPlaying(false)`, where the
delivered value is bounded by the input's `min=0` / `max=len-1` attributes. -/
def scrubTo (_s : PlaybackState) (len : Nat) (requested : Int) : PlaybackState :=
  ⟨clampToRange len requested, false⟩

namespace FrameCache

/-- The retention predicate `f.time >= cutoff` as a Boolean test. -/
def ageOk (cutoff : Int) (f : Frame) : Bool := cutoff ≤ f.time

/-- The time keys of a frame map are pairwise distinct. -/
def timesNodup (m : List Frame) : Prop := (m.map Frame.time).Nodup

theorem timesNodup_nil : timesNodup [] := List.nodup_nil

theorem lookupTime_nil (t : Int) : lookupTime [] t = none := rfl

theorem lookupTime_cons (g : Frame) (m : List Frame) (t : Int) :
    lookupTime (g :: m) t = if g.time = t then some g else lookupTime m t := by
  by_cases h : g.time = t <;> simp [lookupTime, List.find?_cons, h]

theorem lookupTime_mem {m : List Frame} {t : Int} {f : Frame}
    (h : lookupTime m t = some f) : f ∈ m ∧ f.time = t :=
  ⟨List.mem_of_find?_eq_some h, by simpa using List.find?_some h⟩

theorem lookupTime_eq_none {m : List Frame} {t : Int} :
    lookupTime m t = none ↔ ∀ f ∈ m, f.time ≠ t := by
  simp [lookupTime, List.find?_eq_none]

theorem lookupTime_mapSet (m : List Frame) (f : Frame) (t : Int) :
    lookupTime (mapSet m f) t = if f.time = t then some f else lookupTime m t := by
  induction m with
  | nil =>
      by_cases h : f.time = t <;> simp [mapSet, lookupTime_cons, lookupTime_nil, h]
  | cons g m ih =>
      by_cases hg : g.time = f.time
      · by_cases h : f.time = t
        · simp [mapSet, hg, lookupTime_cons, h]
        · have hgt : ¬ g.time = t := fun he => h (by rw [← hg]; exact he)
          simp [mapSet, hg, lookupTime_cons, h, hgt]
      · by_cases h : f.time = t
        · have hgt : ¬ g.time = t := fun he => hg (he.trans h.symm)
          simp [mapSet, hg, lookupTime_cons, h, hgt, ih]
        · simp only [mapSet, if_neg hg, lookupTime_cons, ih, if_neg h]

theorem mem_mapSet {g f : Frame} {m : List Frame} (h : g ∈ mapSet m f) :
    g ∈ m ∨ g = f := by
  induction m with
  | nil =>
      simp only [mapSet, List.mem_singleton] at h
      exact Or.inr h
  | cons a m ih =>
      simp only [mapSet] at h
      split at h
      · rcases List.mem_cons.1 h with rfl | h'
        · exact Or.inr rfl
        · exact Or.inl (List.mem_cons_of_mem _ h')
      · rcases List.mem_cons.1 h with rfl | h'
        · exact Or.inl (List.mem_cons_self _ _)
        · rcases ih h' with h'' | h''
          · exact Or.inl (List.mem_cons_of_mem _ h'')
          · exact Or.inr h''

theorem time_mem_mapSet {t : Int} {m : List Frame} {f : Frame}
    (h : t ∈ (mapSet m f).map Frame.time) : t ∈ m.map Frame.time ∨ t = f.time := by
  rcases List.mem_map.1 h with ⟨g, hg, rfl⟩
  rcases mem_mapSet hg with h' | rfl
  · exact Or.inl (List.mem_map_of_mem _ h')
  · exact Or.inr rfl

theorem timesNodup_cons_iff {g : Frame} {m : List Frame} :
    timesNodup (g :: m) ↔ g.time ∉ m.map Frame.time ∧ timesNodup m := by
  rw [timesNodup, List.map_cons, List.nodup_cons]
  exact Iff.rfl

theorem timesNodup_mapSet {m : List Frame} (f : Frame) (h : timesNodup m) :
    timesNodup (mapSet m f) := by
  induction m with
  | nil => simp [mapSet, timesNodup]
  | cons g m ih =>
      rcases timesNodup_cons_iff.1 h with ⟨hgm, hm⟩
      by_cases hg : g.time = f.time
      · simp only [mapSet, if_pos hg]
        exact timesNodup_cons_iff.2 ⟨hg ▸ hgm, hm⟩
      · simp only [mapSet, if_neg hg]
        refine timesNodup_cons_iff.2 ⟨?_, ih hm⟩
        intro hc
        rcases time_mem_mapSet hc with hc' | hc'
        · exact hgm hc'
        · exact hg hc'

theorem setAll_nil (m : List Frame) : setAll m [] = m := rfl

theorem setAll_cons (m : List Frame) (f : Frame) (fs : List Frame) :
    setAll m (f :: fs) = setAll (mapSet m f) fs := rfl

theorem timesNodup_setAll {m : List Frame} (fs : List Frame) (h : timesNodup m) :
    timesNodup (setAll m fs) := by
  induction fs generalizing m with
  | nil => exact h
  | cons f fs ih => exact ih (timesNodup_mapSet f h)

theorem mem_setAll {g : Frame} {m fs : List Frame} (h : g ∈ setAll m fs) :
    g ∈ m ∨ g ∈ fs := by
  induction fs generalizing m with
  | nil => exact Or.inl h
  | cons f fs ih =>
      rcases ih (by simpa [setAll_cons] using h) with h' | h'
      · rcases mem_mapSet h' with h'' | rfl
        · exact Or.inl h''
        · exact Or.inr (List.mem_cons_self _ _)
      · exact Or.inr (List.mem_cons_of_mem _ h')

theorem lastFrameAt_nil (t : Int) : lastFrameAt [] t = none := rfl

theorem lastFrameAt_cons (f : Frame) (fs : List Frame) (t : Int) :
    lastFrameAt (f :: fs) t
      = (lastFrameAt fs t).or (if f.time = t then some f else none) := by
  by_cases h : f.time = t <;>
    simp [lastFrameAt, List.reverse_cons, List.find?_append, List.find?_cons, h]

theorem lookupTime_setAll (m fs : List Frame) (t : Int) :
    lookupTime (setAll m fs) t = (lastFrameAt fs t).or (lookupTime m t) := by
  induction fs generalizing m with
  | nil => simp [setAll_nil, lastFrameAt_nil, Option.none_or]
  | cons f fs ih =>
      rw [setAll_cons, ih, lookupTime_mapSet, lastFrameAt_cons, Option.or_assoc]
      by_cases h : f.time = t <;> simp [h, Option.or]

theorem seedCached_eq (cached : List Frame) (cutoff : Int) :
    seedCached cached cutoff = setAll [] (cached.filter (ageOk cutoff)) := by
  suffices h : ∀ m, cached.foldl (fun m f => if cutoff ≤ f.time then mapSet m f else m) m
      = setAll m (cached.filter (ageOk cutoff)) from h []
  induction cached with
  | nil => intro m; rfl
  | cons f fs ih =>
      intro m
      by_cases h : cutoff ≤ f.time <;>
        simp [List.foldl_cons, List.filter_cons, ageOk, h, setAll_cons, ih]

theorem lookupTime_eq_some_of_mem {m : List Frame} {f : Frame}
    (hn : timesNodup m) (hm : f ∈ m) : lookupTime m f.time = some f := by
  induction m with
  | nil => cases hm
  | cons g m ih =>
      rcases timesNodup_cons_iff.1 hn with ⟨hgm, hm'n⟩
      rcases List.mem_cons.1 hm with rfl | hm'
      · simp [lookupTime_cons]
      · have hg : ¬ g.time = f.time := by
          intro he
          exact hgm (by rw [he]; exact List.mem_map_of_mem Frame.time hm')
        rw [lookupTime_cons, if_neg hg]
        exact ih hm'n hm'

theorem lookupTime_perm {l l' : List Frame} (hn : timesNodup l) (hp : l.Perm l')
    (t : Int) : lookupTime l t = lookupTime l' t := by
  have hn' : timesNodup l' := ((hp.map Frame.time).nodup_iff).1 hn
  cases h : lookupTime l t with
  | none =>
      symm
      rw [lookupTime_eq_none] at h ⊢
      exact fun f hf => h f (hp.mem_iff.2 hf)
  | some f =>
      rcases lookupTime_mem h with ⟨hm, ht⟩
      subst ht
      exact (lookupTime_eq_some_of_mem hn' (hp.mem_iff.1 hm)).symm

theorem sortFrames_perm (m : List Frame) : (sortFrames m).Perm m :=
  List.perm_insertionSort frameLE m

theorem timesNodup_sortFrames {m : List Frame} (h : timesNodup m) :
    timesNodup (sortFrames m) :=
  (((sortFrames_perm m).map Frame.time).nodup_iff).2 h

theorem lookupTime_sortFrames {m : List Frame} (h : timesNodup m) (t : Int) :
    lookupTime (sortFrames m) t = lookupTime m t :=
  lookupTime_perm (timesNodup_sortFrames h) (sortFrames_perm m) t

theorem timesNodup_filter (p : Frame → Bool) {m : List Frame} (h : timesNodup m) :
    timesNodup (m.filter p) :=
  List.Nodup.sublist ((List.filter_sublist m).map Frame.time) h

theorem lookupTime_filter {m : List Frame} (hn : timesNodup m) {p : Frame → Bool}
    {t : Int} {f : Frame} :
    lookupTime (m.filter p) t = some f ↔ lookupTime m t = some f ∧ p f = true := by
  constructor
  · intro h
    rcases lookupTime_mem h with ⟨hm, ht⟩
    rcases List.mem_filter.1 hm with ⟨hm', hp⟩
    exact ⟨ht ▸ lookupTime_eq_some_of_mem hn hm', hp⟩
  · rintro ⟨h, hp⟩
    rcases lookupTime_mem h with ⟨hm, ht⟩
    exact ht ▸ lookupTime_eq_some_of_mem (timesNodup_filter p hn)
      (List.mem_filter.2 ⟨hm, hp⟩)

theorem lastFrameAt_eq_lookupTime {l : List Frame} (hn : timesNodup l) (t : Int) :
    lastFrameAt l t = lookupTime l t := by
  have hrev : timesNodup l.reverse := by
    simpa [timesNodup, List.map_reverse, List.nodup_reverse] using hn
  have h0 : lastFrameAt l t = lookupTime l.reverse t := rfl
  rw [h0]
  exact lookupTime_perm hrev (List.reverse_perm l) t

theorem timesNodup_mergeRaw (cached fresh : List Frame) (cutoff : Int) :
    timesNodup (setAll (seedCached cached cutoff) fresh) := by
  refine timesNodup_setAll fresh ?_
  rw [seedCached_eq]
  exact timesNodup_setAll _ timesNodup_nil

theorem timesNodup_mergeFrames (cached fresh : List Frame) (now maxAge : Int) :
    timesNodup (mergeFrames cached fresh now maxAge) :=
  timesNodup_sortFrames (timesNodup_mergeRaw cached fresh (now - maxAge))

theorem lookupTime_mergeFrames (cached fresh : List Frame) (now maxAge t : Int) :
    lookupTime (mergeFrames cached fresh now maxAge) t
      = (lastFrameAt fresh t).or
          (lastFrameAt (cached.filter (ageOk (now - maxAge))) t) := by
  rw [mergeFrames, lookupTime_sortFrames (timesNodup_mergeRaw cached fresh _),
      lookupTime_setAll, seedCached_eq, lookupTime_setAll, lookupTime_nil,
      Option.or_none]

theorem mem_mergeFrames {f : Frame} {cached fresh : List Frame} {now maxAge : Int}
    (h : f ∈ mergeFrames cached fresh now maxAge) :
    (f ∈ cached ∧ now - maxAge ≤ f.time) ∨ f ∈ fresh := by
  have h' := (sortFrames_perm _).subset h
  rcases mem_setAll h' with hs | hf
  · rw [seedCached_eq] at hs
    rcases mem_setAll hs with h0 | hfil
    · cases h0
    · rcases List.mem_filter.1 hfil with ⟨hm, hp⟩
      exact Or.inl ⟨hm, by simpa [ageOk] using hp⟩
  · exact Or.inr hf

theorem sorted_mergeFrames (cached fresh : List Frame) (now maxAge : Int) :
    List.Sorted frameLE (mergeFrames cached fresh now maxAge) :=
  List.sorted_insertionSort frameLE _

/-- The strict version of the frame ordering; with distinct time keys the
sorted merge output is strictly increasing. -/
def frameLT (a b : Frame) : Prop := a.time < b.time

instance : IsAntisymm Frame frameLT :=
  ⟨fun _ _ h₁ h₂ => absurd (lt_trans h₁ h₂) (lt_irrefl _)⟩

theorem sortedLT_of_sortedLE_nodup {l : List Frame}
    (hs : List.Sorted frameLE l) (hn : timesNodup l) : List.Sorted frameLT l := by
  have hne : l.Pairwise (fun a b : Frame => a.time ≠ b.time) := List.pairwise_map.1 hn
  have hand := List.Pairwise.and hs hne
  exact hand.imp (fun h => lt_of_le_of_ne h.1 h.2)

end FrameCache

/-- C2: for every frame time `t` present in both the previously cached window
and the freshly fetched frame batch, the frame stored at `t` in the merge
output is one from the fresh batch (the one a forEach of `Map.set` calls
leaves last), independent of the iteration order of the cached frames. -/
theorem frame_merge_fresh_precedence (cached fresh : List Frame) (now maxAge t : Int)
    (_hprev : ∃ f ∈ cached, f.time = t) (hfresh : ∃ f ∈ fresh, f.time = t) :
    ∃ f ∈ fresh, f.time = t ∧
      FrameCache.lookupTime (FrameCache.mergeFrames cached fresh now maxAge) t
        = some f := by
  rcases hfresh with ⟨f, hf, hft⟩
  cases hF : FrameCache.lastFrameAt fresh t with
  | none =>
      exfalso
      simp only [FrameCache.lastFrameAt, List.find?_eq_none] at hF
      exact hF f (List.mem_reverse.2 hf) (by simpa using hft)
  | some g =>
      have hmem : g ∈ fresh := List.mem_reverse.1 (List.mem_of_find?_eq_some hF)
      have hgt : g.time = t := by simpa using List.find?_some hF
      refine ⟨g, hmem, hgt, ?_⟩
      rw [FrameCache.lookupTime_mergeFrames, hF]
      rfl

/-- C2 witness: a cached and a fresh frame share time 10; the merged window
stores the fresh one at key 10. -/
theorem frame_merge_fresh_precedence_witness :
    FrameCache.lookupTime
        (FrameCache.mergeFrames [⟨10, "old"⟩] [⟨10, "new"⟩] 100 200) 10
      = some ⟨10, "new"⟩ := by
  rcases frame_merge_fresh_precedence [⟨10, "old"⟩] [⟨10, "new"⟩] 100 200 10
      ⟨⟨10, "old"⟩, List.mem_singleton.2 rfl, rfl⟩
      ⟨⟨10, "new"⟩, List.mem_singleton.2 rfl, rfl⟩ with ⟨f, hfm, _, hl⟩
  have hf : f = ⟨10, "new"⟩ := List.mem_singleton.1 hfm
  rw [hf] at hl
  exact hl

/-- C3 counterexample: the retention filter `f.time >= cutoff` is applied only
to the cached frames; a fresh frame older than `now - maxAgeSeconds` (time 0
with now = 100, maxAge = 10) survives into the merge output, so the claimed
unconditional retention bound is false. -/
theorem retention_bound_counterexample :
    (⟨0, "p"⟩ : Frame) ∈ FrameCache.mergeFrames [] [⟨0, "p"⟩] 100 10 ∧
      ¬ ((100 : Int) - 10 ≤ (⟨0, "p"⟩ : Frame).time) := by
  constructor
  · rw [show FrameCache.mergeFrames [] [⟨0, "p"⟩] 100 10 = [⟨0, "p"⟩] from rfl]
    exact List.mem_singleton.2 rfl
  · decide

/-- C3 amended: every frame of a merge output either satisfies the retention
bound `time >= now - maxAgeSeconds` or arrived in the fresh batch; only the
frames seeded from the previous window are age-filtered. -/
theorem retention_bound_amended (cached fresh : List Frame) (now maxAge : Int) :
    ∀ f ∈ FrameCache.mergeFrames cached fresh now maxAge,
      now - maxAge ≤ f.time ∨ f ∈ fresh := by
  intro f hf
  rcases FrameCache.mem_mergeFrames hf with ⟨_, h⟩ | h
  · exact Or.inl h
  · exact Or.inr h

/-- C3 amended witness: the over-age frame of the counterexample is accounted
for by its membership in the fresh batch. -/
theorem retention_bound_amended_witness :
    (100 : Int) - 10 ≤ (⟨0, "p"⟩ : Frame).time ∨
      (⟨0, "p"⟩ : Frame) ∈ [(⟨0, "p"⟩ : Frame)] :=
  retention_bound_amended [] [⟨0, "p"⟩] 100 10 ⟨0, "p"⟩
    (by rw [show FrameCache.mergeFrames [] [⟨0, "p"⟩] 100 10 = [⟨0, "p"⟩] from rfl]
        exact List.mem_singleton.2 rfl)

/-- C4: the frame-cache merge is idempotent in its fresh batch: at a fixed
`now` and `maxAgeSeconds`, merging the same fresh batch into the output of a
first merge reproduces that output exactly. -/
theorem frame_merge_idempotent (cached fresh : List Frame) (now maxAge : Int) :
    FrameCache.mergeFrames (FrameCache.mergeFrames cached fresh now maxAge)
        fresh now maxAge
      = FrameCache.mergeFrames cached fresh now maxAge := by
  have hS : FrameCache.timesNodup (FrameCache.mergeFrames cached fresh now maxAge) :=
    FrameCache.timesNodup_mergeFrames cached fresh now maxAge
  have hT : FrameCache.timesNodup
      (FrameCache.mergeFrames (FrameCache.mergeFrames cached fresh now maxAge)
        fresh now maxAge) :=
    FrameCache.timesNodup_mergeFrames _ fresh now maxAge
  have hlook : ∀ t,
      FrameCache.lookupTime
          (FrameCache.mergeFrames (FrameCache.mergeFrames cached fresh now maxAge)
            fresh now maxAge) t
        = FrameCache.lookupTime (FrameCache.mergeFrames cached fresh now maxAge) t := by
    intro t
    rw [FrameCache.lookupTime_mergeFrames, FrameCache.lookupTime_mergeFrames]
    cases hF : FrameCache.lastFrameAt fresh t with
    | some g => rfl
    | none =>
        simp only [Option.none_or]
        have hfn : FrameCache.timesNodup
            ((FrameCache.mergeFrames cached fresh now maxAge).filter
              (FrameCache.ageOk (now - maxAge))) :=
          FrameCache.timesNodup_filter _ hS
        rw [FrameCache.lastFrameAt_eq_lookupTime hfn]
        cases hW : FrameCache.lastFrameAt
            (cached.filter (FrameCache.ageOk (now - maxAge))) t with
        | some g =>
            have hmem : g ∈ cached.filter (FrameCache.ageOk (now - maxAge)) :=
              List.mem_reverse.1 (List.mem_of_find?_eq_some hW)
            have hage : FrameCache.ageOk (now - maxAge) g = true :=
              List.of_mem_filter hmem
            have hlS : FrameCache.lookupTime
                (FrameCache.mergeFrames cached fresh now maxAge) t = some g := by
              rw [FrameCache.lookupTime_mergeFrames, hF, Option.none_or, hW]
            exact (FrameCache.lookupTime_filter hS).2 ⟨hlS, hage⟩
        | none =>
            cases hX : FrameCache.lookupTime
                ((FrameCache.mergeFrames cached fresh now maxAge).filter
                  (FrameCache.ageOk (now - maxAge))) t with
            | none => rfl
            | some f =>
                rcases (FrameCache.lookupTime_filter hS).1 hX with ⟨h2a, _⟩
                rw [FrameCache.lookupTime_mergeFrames, hF, Option.none_or, hW] at h2a
                exact Option.noConfusion h2a
  have hmem : ∀ g,
      g ∈ FrameCache.mergeFrames (FrameCache.mergeFrames cached fresh now maxAge)
            fresh now maxAge
        ↔ g ∈ FrameCache.mergeFrames cached fresh now maxAge := by
    intro g
    constructor
    · intro hg
      have h := FrameCache.lookupTime_eq_some_of_mem hT hg
      rw [hlook g.time] at h
      exact (FrameCache.lookupTime_mem h).1
    · intro hg
      have h := FrameCache.lookupTime_eq_some_of_mem hS hg
      rw [← hlook g.time] at h
      exact (FrameCache.lookupTime_mem h).1
  have hperm := (List.perm_ext_iff_of_nodup
      (List.Nodup.of_map Frame.time hT) (List.Nodup.of_map Frame.time hS)).2 hmem
  exact List.eq_of_perm_of_sorted hperm
    (FrameCache.sortedLT_of_sortedLE_nodup (FrameCache.sorted_mergeFrames _ _ _ _) hT)
    (FrameCache.sortedLT_of_sortedLE_nodup (FrameCache.sorted_mergeFrames _ _ _ _) hS)

/-- C8: persistence failures never affect the merge result.  A failing
local-storage read degrades to the cold-start merge, the returned window does
not depend on whether the write succeeds, and a read failure behaves exactly
like an empty stored cache; the model is a total function, so no exception
escapes the merge. -/
theorem persistence_failure_harmless (cached fresh : List Frame) (now maxAge : Int)
    (e : String) (w₁ w₂ : Bool) :
    (FrameCache.runFetchFrames (.error e) w₁ fresh now maxAge).window
        = FrameCache.mergeFrames [] fresh now maxAge ∧
      (FrameCache.runFetchFrames (.ok cached) w₁ fresh now maxAge).window
        = (FrameCache.runFetchFrames (.ok cached) w₂ fresh now maxAge).window ∧
      (FrameCache.runFetchFrames (.error e) w₁ fresh now maxAge).window
        = (FrameCache.runFetchFrames (.ok []) w₂ fresh now maxAge).window :=
  ⟨rfl, rfl, rfl⟩

/-- C10: every frame written to durable storage by a merge satisfies
`time <= now` (the persisted slice is `allFrames.filter(f => f.time <= now)`),
and every frame of the in-memory window with `time <= now` is persisted — so
exactly the future ("nowcast") frames stay in the playback window without
being written to the cache. -/
theorem persisted_frames_past_only (cached fresh : List Frame) (now maxAge : Int) :
    (∀ f ∈ FrameCache.persistedFrames cached fresh now maxAge, f.time ≤ now) ∧
      (∀ f ∈ FrameCache.mergeFrames cached fresh now maxAge,
        f.time ≤ now → f ∈ FrameCache.persistedFrames cached fresh now maxAge) := by
  constructor
  · intro f hf
    simpa using List.of_mem_filter hf
  · intro f hf ht
    exact List.mem_filter.2 ⟨hf, by simpa using ht⟩

/-- C10 witness: a past frame (time 0, now 100) is persisted and satisfies
the bound. -/
theorem persisted_frames_past_only_witness :
    (⟨0, "p"⟩ : Frame).time ≤ (100 : Int) :=
  (persisted_frames_past_only [] [⟨0, "p"⟩] 100 10).1 ⟨0, "p"⟩
    (by rw [show FrameCache.persistedFrames [] [⟨0, "p"⟩] 100 10 = [⟨0, "p"⟩] from rfl]
        exact List.mem_singleton.2 rfl)

/-- C1 counterexample: the fusion maps over the primary series only, so a
secondary value at an index beyond the primary's length (7 at index 1 for
primary [1], secondary [5, 7]) does not pass through: the fused series has no
value there at all. -/
theorem fusion_passthrough_counterexample :
    ¬ ((fuseSnow [1] [5, 7]).get? 1 = some 7) := by
  simp [fuseSnow]

/-- C1 amended: the fused series has exactly the primary's length; at every
index `i` of the primary, the fused value is `max(primary[i], secondary[i])`
when both series define a value and `max(primary[i], 0)` when the secondary
is shorter (so a nonnegative primary value passes through unchanged there),
while secondary values beyond the primary's length are dropped. -/
theorem fusion_per_index_max_amended (p s : List ℚ) :
    (fuseSnow p s).length = p.length ∧
      ∀ i, i < p.length →
        (fuseSnow p s).get? i = some (max (p.getD i 0) (s.getD i 0)) := by
  induction p generalizing s with
  | nil => exact ⟨rfl, fun i hi => absurd hi (by simp)⟩
  | cons a ps ih =>
      cases s with
      | nil =>
          refine ⟨by simpa [fuseSnow] using (ih []).1, ?_⟩
          intro i hi
          cases i with
          | zero => simp [fuseSnow]
          | succ j =>
              have hj : j < ps.length := by simpa using hi
              simpa [fuseSnow, List.getD_cons_succ, List.getD_nil]
                using (ih []).2 j hj
      | cons b ss =>
          refine ⟨by simpa [fuseSnow] using (ih ss).1, ?_⟩
          intro i hi
          cases i with
          | zero => simp [fuseSnow]
          | succ j =>
              have hj : j < ps.length := by simpa using hi
              simpa [fuseSnow, List.getD_cons_succ] using (ih ss).2 j hj

/-- C1 amended witness: the spec's own unequal-length example, primary
[1,2,3] with secondary [5,0], fuses index 2 to 3 (the primary value passes
through). -/
theorem fusion_per_index_max_amended_witness :
    (fuseSnow [1, 2, 3] [5, 0]).get? 2 = some 3 := by
  have h := (fusion_per_index_max_amended [1, 2, 3] [5, 0]).2 2 (by norm_num)
  have h3 : max (3 : ℚ) 0 = 3 := max_eq_left (by norm_num)
  simpa [h3] using h

/-- C5: the two snowfall series reach the fusion in different physical
units — the GFS request sets `precipitation_unit=inch` while the GEM request
sets no unit parameter and therefore receives centimetres — and the code
takes the raw maximum anyway: GFS 1 (inch) against GEM 2 (cm) yields 2, even
though 1 inch = 2.54 cm exceeds 2 cm, as the unit-normalized comparison
(which yields the GFS value 1) shows. -/
theorem snow_fusion_unit_mismatch :
    snowfallUnit gfsExtendedRequest = "inch" ∧
      snowfallUnit gemExtendedRequest = "cm" ∧
      fuseSnow [1] [2] = [2] ∧
      fuseSnow [1] [cmToInches 2] = [1] := by
  refine ⟨rfl, rfl, ?_, ?_⟩
  · have h : max (1 : ℚ) 2 = 2 := max_eq_right (by norm_num)
    simp [fuseSnow, h]
  · have h : max (1 : ℚ) (cmToInches 2) = 1 := max_eq_left (by norm_num [cmToInches])
    simp [fuseSnow, h]

/-- C6: one auto-play tick advances a valid index `i` of a non-empty window
of length `n` to `(i + 1) mod n`, which stays in range and wraps from `n - 1`
to 0 instead of clamping or running out of range. -/
theorem playback_advance_wraps (n i : Nat) (hn : 0 < n) (hi : i < n) :
    advanceFrame i n = (i + 1) % n ∧ advanceFrame i n < n ∧
      (i = n - 1 → advanceFrame i n = 0) := by
  refine ⟨rfl, Nat.mod_lt _ hn, fun hE => ?_⟩
  subst hE
  have h1 : n - 1 + 1 = n := Nat.succ_pred_eq_of_pos hn
  simp [advanceFrame, h1]

/-- C6 witness: the spec's example — length 5, index 4 — advances to 0. -/
theorem playback_advance_wraps_witness : advanceFrame 4 5 = 0 :=
  (playback_advance_wraps 5 4 (by decide) (by decide)).2.2 (by decide)

/-- C7: a scrub clamps the requested index into [0, length-1] (enforced by
the range input's `min=0` / `max=length-1` attributes) and always leaves
`isPlaying` false, whatever it was before. -/
theorem scrub_clamps_and_pauses (s : PlaybackState) (len : Nat) (requested : Int)
    (hlen : 0 < len) :
    0 ≤ (scrubTo s len requested).currentFrame ∧
      (scrubTo s len requested).currentFrame ≤ (len : Int) - 1 ∧
      (scrubTo s len requested).isPlaying = false := by
  refine ⟨le_max_left 0 _, ?_, rfl⟩
  have h0 : (0 : Int) ≤ (len : Int) - 1 := by
    have h1 : (1 : Int) ≤ (len : Int) := by exact_mod_cast hlen
    omega
  exact max_le h0 (min_le_left _ _)

/-- C7 witness: scrubbing to 99 in a 5-frame window while playing lands on
index 4 with playback paused. -/
theorem scrub_clamps_and_pauses_witness :
    (scrubTo ⟨2, true⟩ 5 99).currentFrame = 4 ∧
      (scrubTo ⟨2, true⟩ 5 99).isPlaying = false :=
  ⟨by decide, (scrub_clamps_and_pauses ⟨2, true⟩ 5 99 (by decide)).2.2⟩

/-- C9: the AQI classifier returns Good on (-∞,50], Moderate on (50,100],
Unhealthy for Sensitive on (100,150], Unhealthy on (150,200], Very Unhealthy
on (200,300] and Hazardous above 300; the UV classifier returns Low on
(-∞,2], Moderate on (2,5], High on (5,7], Very High on (7,10] and Extreme
above 10 — all upper boundaries inclusive. -/
theorem classifier_bands (a u : ℚ) :
    ((a ≤ 50 → (getAqiLevel a).label = "Good") ∧
      (50 < a → a ≤ 100 → (getAqiLevel a).label = "Moderate") ∧
      (100 < a → a ≤ 150 → (getAqiLevel a).label = "Unhealthy for Sensitive") ∧
      (150 < a → a ≤ 200 → (getAqiLevel a).label = "Unhealthy") ∧
      (200 < a → a ≤ 300 → (getAqiLevel a).label = "Very Unhealthy") ∧
      (300 < a → (getAqiLevel a).label = "Hazardous")) ∧
    ((u ≤ 2 → (getUvLevel u).label = "Low") ∧
      (2 < u → u ≤ 5 → (getUvLevel u).label = "Moderate") ∧
      (5 < u → u ≤ 7 → (getUvLevel u).label = "High") ∧
      (7 < u → u ≤ 10 → (getUvLevel u).label = "Very High") ∧
      (10 < u → (getUvLevel u).label = "Extreme")) := by
  refine ⟨⟨?_, ?_, ?_, ?_, ?_, ?_⟩, ?_, ?_, ?_, ?_, ?_⟩
  · intro h1
    simp [getAqiLevel, h1]
  · intro h1 h2
    simp [getAqiLevel, not_le.2 h1, h2]
  · intro h1 h2
    have n50 : ¬ a ≤ 50 := not_le.2 (lt_trans (show (50 : ℚ) < 100 by norm_num) h1)
    simp [getAqiLevel, n50, not_le.2 h1, h2]
  · intro h1 h2
    have n50 : ¬ a ≤ 50 := not_le.2 (lt_trans (show (50 : ℚ) < 150 by norm_num) h1)
    have n100 : ¬ a ≤ 100 := not_le.2 (lt_trans (show (100 : ℚ) < 150 by norm_num) h1)
    simp [getAqiLevel, n50, n100, not_le.2 h1, h2]
  · intro h1 h2
    have n50 : ¬ a ≤ 50 := not_le.2 (lt_trans (show (50 : ℚ) < 200 by norm_num) h1)
    have n100 : ¬ a ≤ 100 := not_le.2 (lt_trans (show (100 : ℚ) < 200 by norm_num) h1)
    have n150 : ¬ a ≤ 150 := not_le.2 (lt_trans (show (150 : ℚ) < 200 by norm_num) h1)
    simp [getAqiLevel, n50, n100, n150, not_le.2 h1, h2]
  · intro h1
    have n50 : ¬ a ≤ 50 := not_le.2 (lt_trans (show (50 : ℚ) < 300 by norm_num) h1)
    have n100 : ¬ a ≤ 100 := not_le.2 (lt_trans (show (100 : ℚ) < 300 by norm_num) h1)
    have n150 : ¬ a ≤ 150 := not_le.2 (lt_trans (show (150 : ℚ) < 300 by norm_num) h1)
    have n200 : ¬ a ≤ 200 := not_le.2 (lt_trans (show (200 : ℚ) < 300 by norm_num) h1)
    simp [getAqiLevel, n50, n100, n150, n200, not_le.2 h1]
  · intro h1
    simp [getUvLevel, h1]
  · intro h1 h2
    simp [getUvLevel, not_le.2 h1, h2]
  · intro h1 h2
    have n2 : ¬ u ≤ 2 := not_le.2 (lt_trans (show (2 : ℚ) < 5 by norm_num) h1)
    simp [getUvLevel, n2, not_le.2 h1, h2]
  · intro h1 h2
    have n2 : ¬ u ≤ 2 := not_le.2 (lt_trans (show (2 : ℚ) < 7 by norm_num) h1)
    have n5 : ¬ u ≤ 5 := not_le.2 (lt_trans (show (5 : ℚ) < 7 by norm_num) h1)
    simp [getUvLevel, n2, n5, not_le.2 h1, h2]
  · intro h1
    have n2 : ¬ u ≤ 2 := not_le.2 (lt_trans (show (2 : ℚ) < 10 by norm_num) h1)
    have n5 : ¬ u ≤ 5 := not_le.2 (lt_trans (show (5 : ℚ) < 10 by norm_num) h1)
    have n7 : ¬ u ≤ 7 := not_le.2 (lt_trans (show (7 : ℚ) < 10 by norm_num) h1)
    simp [getUvLevel, n2, n5, n7, not_le.2 h1]

/-- C9 witness: AQI exactly 50 is Good, 51 is Moderate, and UV 11 is
Extreme. -/
theorem classifier_bands_witness :
    (getAqiLevel 50).label = "Good" ∧ (getAqiLevel 51).label = "Moderate" ∧
      (getUvLevel 11).label = "Extreme" :=
  ⟨(classifier_bands 50 0).1.1 (by norm_num),
    (classifier_bands 51 0).1.2.1 (by norm_num) (by norm_num),
    (classifier_bands 0 11).2.2.2.2.2 (by norm_num)⟩
